import Mathlib

/-!
# Hermes — verification of the event-reconciliation engine and meta-transaction relay

Shallow embedding of the core of the Hermes backend:

* `src/Hermes_api/src/services/eventProcessor.js` (`HybridEventProcessor`):
  the idempotent event dispatcher (`processEvent`), the business-logic
  handlers, the checkpoint update (`updateLastProcessedBlock`) and the
  block scanner (`scanForMissedEvents`).
* `src/Hermes_api/src/utils/metaTx.js`: meta-transaction request
  construction (`createMetaTxRequest`, `createBridgeBurnMetaTx`),
  signature verification (`verifyMetaTxSignature`) and relay execution
  (`executeMetaTx`).
* `src/Hermes_api/src/utils/gas.js` / `src/unnamed/part_006`
  (`deductGasCredit`): gas-credit accounting.

Conventions of the embedding:

* Prisma tables are lists of rows inside a single `Db` record; a Prisma
  interactive transaction (`prisma.$transaction`) is a function
  `Db → Option Db` whose `none` result models a thrown error, in which
  case the caller keeps the pre-transaction state (rollback).
* JavaScript numbers that hold token amounts are modelled as `ℚ`
  (`parseFloat(ethers.formatUnits(x, d))` becomes exact division by
  `10 ^ d`); block numbers are `Int` (the code applies `Math.max`,
  `Math.min` and subtraction to them); raw `uint256` words are `ℕ`.
* External collaborators (the chain client's typed-data recovery
  primitive, the forwarder contract, the mobile-money service, ABI
  encoding) are injected as function parameters, exactly at the
  boundary where the JavaScript code calls out of the repository.
-/

namespace Hermes

/-! ## Data model (Prisma rows used by the event processor) -/

/-- A `ProcessedEvent` row: one row per accepted chain event, keyed by
`(txHash, logIndex)` (unique constraint `txHash_logIndex`). -/
structure PERow where
  txHash : String
  eventName : String
  blockNumber : Int
  logIndex : Nat
  contractAddress : String
  processed : Bool
deriving Repr, DecidableEq

/-- The fields of a `User` row read or written by this core. -/
structure User where
  id : Nat
  walletAddress : String
  ugdxCredit : ℚ
  gasCredit : ℚ
deriving Repr, DecidableEq

/-- A `MobileMoneyJob` row as seen through `transaction.mmJob`. -/
structure MmJob where
  id : Nat
  amount : ℚ
  phone : String
deriving Repr, DecidableEq

/-- A `Transaction` row (off-chain ledger record). `txHash` is `none`
until an on-chain reference is attached. -/
structure Txn where
  id : Nat
  userId : Nat
  ttype : String
  amountUGX : ℚ
  ugdxAmount : ℚ
  txHash : Option String
  status : String
  mmJob : Option MmJob
deriving Repr, DecidableEq

/-- The single cached oracle price row (`oraclePrice`, id 1). -/
structure OraclePriceRow where
  currentRate : ℚ
  lastUpdated : Int
deriving Repr, DecidableEq

/-- The persistent store: each field is one Prisma table touched by the
event processor. `procStates` maps a contract address to its
`lastProcessedBlock` (the `EventProcessingState` table). -/
structure Db where
  processedEvents : List PERow
  procStates : List (String × Int)
  users : List User
  transactions : List Txn
  nextTxnId : Nat
  oraclePrice : Option OraclePriceRow
deriving Repr, DecidableEq

/-- `parseFloat(ethers.formatUnits(x, decimals))`: a raw `uint256`
amount scaled down by `10 ^ decimals`, idealized as exact division. -/
def formatUnits (x : Nat) (decimals : Nat) : ℚ :=
  (x : ℚ) / 10 ^ decimals

/-! ## metaTx.js — request construction and signature verification -/

/-- The EIP-712 domain returned by `getForwarderDomain` in
`src/Hermes_api/src/utils/metaTx.js`. -/
structure ForwarderDomain where
  name : String
  version : String
  chainId : Nat
  verifyingContract : String
deriving Repr, DecidableEq

/-- `getForwarderDomain(chainId, forwarderAddress)`. -/
def getForwarderDomain (chainId : Nat) (forwarderAddress : String) : ForwarderDomain :=
  { name := "ERC2771Forwarder"
    version := "0.0.1"
    chainId := chainId
    verifyingContract := forwarderAddress }

/-- `getMetaTxTypes()`: the `ForwardRequest` typed-field list, as
(name, solidity type) pairs. -/
def getMetaTxTypes : List (String × String) :=
  [("from", "address"), ("to", "address"), ("value", "uint256"),
   ("gas", "uint256"), ("nonce", "uint256"), ("data", "bytes"),
   ("validUntil", "uint256")]

/-- A meta-transaction `ForwardRequest` as built by
`createMetaTxRequest`. `value`, `gas`, `nonce`, `validUntil` are
`uint256` words (`bigint` in the code). -/
structure MetaTxRequest where
  «from» : String
  «to» : String
  value : Nat
  gas : Nat
  nonce : Nat
  data : String
  validUntil : Nat
deriving Repr, DecidableEq

/-- `createMetaTxRequest(from, to, data, nonce, chainId, forwarderAddress)`
(metaTx.js lines 21–32): fixes `value = 0n`, `gas = 300000n`,
`validUntil = 0n`; `chainId` and `forwarderAddress` are accepted but not
used for the request fields, exactly as in the source. -/
def createMetaTxRequest (fromAddress toAddress data : String) (nonce : Nat)
    (_chainId : Nat) (_forwarderAddress : String) : MetaTxRequest :=
  { «from» := fromAddress
    «to» := toAddress
    value := 0
    gas := 300000
    nonce := nonce
    data := data
    validUntil := 0 }

/-- `createBridgeBurnMetaTx(userAddress, amount, bridgeContract,
forwarderContract, chainId)` (metaTx.js lines 240–258). The ABI encoder
`bridgeContract.interface.encodeFunctionData('burnForWithdrawal', ...)`
and the just-in-time nonce lookup `forwarderContract.nonces(user)` are
injected as `encodeBurnForWithdrawal` and `nonces`. -/
def createBridgeBurnMetaTx (encodeBurnForWithdrawal : Nat → String)
    (nonces : String → Nat) (userAddress : String) (amount : Nat)
    (bridgeAddress forwarderAddress : String) (chainId : Nat) : MetaTxRequest :=
  createMetaTxRequest userAddress bridgeAddress
    (encodeBurnForWithdrawal amount) (nonces userAddress) chainId forwarderAddress

/-- `"....".toLowerCase()` on an address string. -/
def toLowerStr (s : String) : String :=
  ⟨s.data.map Char.toLower⟩

/-- `verifyMetaTxSignature(request, signature, chainId, forwarderAddress)`
(metaTx.js lines 95–107). The chain client's typed-data recovery
primitive (`ethers.verifyTypedData`) is injected as `recoverTypedData`;
`Except.error` models a thrown recovery error, which the `catch` block
turns into `false`. On success the recovered address is compared,
lower-cased, against `request.from`. -/
def verifyMetaTxSignature
    (recoverTypedData : ForwarderDomain → List (String × String) → MetaTxRequest → String → Except String String)
    (request : MetaTxRequest) (signature : String)
    (chainId : Nat) (forwarderAddress : String) : Bool :=
  match recoverTypedData (getForwarderDomain chainId forwarderAddress) getMetaTxTypes request signature with
  | .ok recoveredAddress => toLowerStr recoveredAddress == toLowerStr request.«from»
  | .error _ => false

/-! ## metaTx.js — relay execution -/

/-- A thrown ethers error as observed by `executeMetaTx`'s catch block:
`message`, `code` and `reason` may each be absent. -/
structure JsError where
  message : Option String
  code : Option String
  reason : Option String
deriving Repr, DecidableEq

/-- JavaScript `a || b` on an optional string: `none` and the empty
string are falsy. -/
def jsStringOr (s : Option String) (d : String) : String :=
  match s with
  | none => d
  | some m => if m = "" then d else m

/-- A confirmed transaction receipt (`tx.wait()`), reduced to the field
`executeMetaTx` reads. -/
structure TxReceipt where
  hash : String
deriving Repr, DecidableEq

/-- The observable behaviour of the forwarder contract for one request:
the outcome of `execute.staticCall`, of `execute` (sent transaction
hash) and of `tx.wait()`. `Except.error` models a thrown error. -/
structure ForwarderBehavior where
  staticCallResult : Except JsError Unit
  executeResult : Except JsError String
  waitResult : Except JsError TxReceipt

/-- The structured result of `executeMetaTx`: either
`{success: true, txHash, receipt}` or
`{success: false, error, code, reason}`. -/
inductive MetaTxResult where
  | success (txHash : String) (receipt : TxReceipt)
  | failure (error : String) (code : Option String) (reason : Option String)
deriving Repr, DecidableEq

/-- `executeMetaTx(forwarderContract, request, signature)`
(metaTx.js lines 116–188), as a function of the forwarder's behaviour.
The second component records whether `forwarderContract.execute` (the
real on-chain submission) was invoked. The inner `try` around the
static call rethrows, so a dry-run revert reaches the outer `catch`
without `execute` ever being called; the outer `catch` normalizes every
thrown error into a `failure` value (`error.message || 'Unknown error'`,
`error.code`, `error.reason`). -/
def executeMetaTx (fwd : ForwarderBehavior) : MetaTxResult × Bool :=
  match fwd.staticCallResult with
  | .error e => (.failure (jsStringOr e.message "Unknown error") e.code e.reason, false)
  | .ok _ =>
    match fwd.executeResult with
    | .error e => (.failure (jsStringOr e.message "Unknown error") e.code e.reason, true)
    | .ok _txHash =>
      match fwd.waitResult with
      | .error e => (.failure (jsStringOr e.message "Unknown error") e.code e.reason, true)
      | .ok receipt => (.success receipt.hash receipt, true)

/-! ## Gas accounting (`deductGasCredit`) -/

/-- `deductGasCredit` (src/Hermes_api/src/utils/gas.js lines 423–453 of
the combined utils file, and `src/unnamed/part_006` lines 20–32):
`costWei = gasUsed * gasPrice`, `costUGX = formatEther(costWei) * 3700`,
new credit `Math.max(currentCredit - costUGX, 0)`, and a `GasDrip`
row of type `USE` whose `amount` is `costUGX`. Returns
(new `gasCredit`, recorded `GasDrip.amount`). -/
def deductGasCredit (gasUsed gasPrice : Nat) (gasCredit : ℚ) : ℚ × ℚ :=
  let costWei := gasUsed * gasPrice
  let costUGX := formatUnits costWei 18 * 3700
  (max (gasCredit - costUGX) 0, costUGX)

/-- A sequence of gas debits (`gasUsed`, `gasPrice` per receipt) applied
in order: returns the final credit and the list of recorded `GasDrip`
`USE` amounts. -/
def runGasDebits (debits : List (Nat × Nat)) (gasCredit : ℚ) : ℚ × List ℚ :=
  match debits with
  | [] => (gasCredit, [])
  | (gu, gp) :: rest =>
    let step := deductGasCredit gu gp gasCredit
    let tail := runGasDebits rest step.1
    (tail.1, step.2 :: tail.2)

/-! ## eventProcessor.js — events and business-logic handlers -/

/-- The decoded parameters handed to `processEvent`, one constructor per
event type the processor dispatches on (`executeEventLogic`'s `switch`
cases); the constructor plays the role of the `eventName` string.
Raw `uint256` arguments are `ℕ`. -/
inductive EventParams where
  | swap (user : String) (usdtAmount ugdxAmount feeAmount exchangeRate : Nat)
  | mmMint (user : String) (ugdxAmount timestamp : Nat)
  | burn (user : String) (ugdxAmount timestamp : Nat)
  | price (oldRate newRate timestamp : Nat) (updater : String)
deriving Repr, DecidableEq

/-- The `eventName` string the source attaches to each event shape. -/
def eventNameOf : EventParams → String
  | .swap .. => "USDTSwappedForUGDX"
  | .mmMint .. => "MobileMoneyMintUGDX"
  | .burn .. => "UGDXBurnedForWithdrawal"
  | .price .. => "PriceUpdated"

/-- `prisma.user.findUnique({ where: { walletAddress } })`. -/
def findUserByWallet (db : Db) (walletAddress : String) : Option User :=
  db.users.find? (fun u => u.walletAddress == walletAddress)

/-- `handleUSDTSwappedForUGDX(params, event, tx)` (eventProcessor.js
lines 220–255): resolve the user by wallet address (unknown user: log
and return, leaving the surrounding transaction to commit), create a
COMPLETED MINT `Transaction` row, and increment the user's off-chain
`ugdxCredit` by the minted amount. -/
def handleUSDTSwappedForUGDX (db : Db) (user : String)
    (usdtAmount ugdxAmount : Nat) (transactionHash : String) : Option Db :=
  let usdtValue := formatUnits usdtAmount 6
  let ugdxValue := formatUnits ugdxAmount 18
  match findUserByWallet db user with
  | none => some db
  | some dbUser =>
    let newTxn : Txn :=
      { id := db.nextTxnId
        userId := dbUser.id
        ttype := "MINT"
        amountUGX := ugdxValue
        ugdxAmount := ugdxValue
        txHash := some transactionHash
        status := "COMPLETED"
        mmJob := none }
    some { db with
      transactions := db.transactions ++ [newTxn]
      nextTxnId := db.nextTxnId + 1
      users := db.users.map (fun u =>
        if u.id = dbUser.id then { u with ugdxCredit := u.ugdxCredit + ugdxValue } else u) }

/-- `handleMobileMoneyMintUGDX(params, event, tx)` (eventProcessor.js
lines 260–294): same shape as the swap handler, sourced from an
off-chain payment confirmation (UGX = UGDX, 1:1). -/
def handleMobileMoneyMintUGDX (db : Db) (user : String)
    (ugdxAmount : Nat) (transactionHash : String) : Option Db :=
  let ugdxValue := formatUnits ugdxAmount 18
  match findUserByWallet db user with
  | none => some db
  | some dbUser =>
    let newTxn : Txn :=
      { id := db.nextTxnId
        userId := dbUser.id
        ttype := "MINT"
        amountUGX := ugdxValue
        ugdxAmount := ugdxValue
        txHash := some transactionHash
        status := "COMPLETED"
        mmJob := none }
    some { db with
      transactions := db.transactions ++ [newTxn]
      nextTxnId := db.nextTxnId + 1
      users := db.users.map (fun u =>
        if u.id = dbUser.id then { u with ugdxCredit := u.ugdxCredit + ugdxValue } else u) }

/-- The `where` filter of the burn handler's `findMany`: pending
REDEEM/SEND transactions of the resolved user. -/
def pendingWithdrawalPred (dbUser : User) (t : Txn) : Bool :=
  t.userId == dbUser.id && t.status == "PENDING" &&
    (t.ttype == "REDEEM" || t.ttype == "SEND")

/-- `handleUGDXBurnedForWithdrawal(params, event, tx)` (eventProcessor.js
lines 299–344): resolve the user; query the user's PENDING REDEEM/SEND
transactions; take the first (`pendingTxs[0]`); set its `status` to
COMPLETED and its `txHash` to the burn event's hash; then, if that
record has a linked mobile-money job and is a REDEEM, call
`mmService.requestToPay`. The mobile-money call is injected as
`requestToPay amount phone transId`; `none` models a thrown error,
which propagates out of the handler. -/
def handleUGDXBurnedForWithdrawal (requestToPay : ℚ → String → String → Option Unit)
    (db : Db) (user : String) (ugdxAmount : Nat) (transactionHash : String) : Option Db :=
  let ugdxValue := formatUnits ugdxAmount 18
  match findUserByWallet db user with
  | none => some db
  | some dbUser =>
    match db.transactions.filter (pendingWithdrawalPred dbUser) with
    | [] => some db
    | matchingTx :: _ =>
      let db1 := { db with
        transactions := db.transactions.map (fun t =>
          if t.id = matchingTx.id then
            { t with status := "COMPLETED", txHash := some transactionHash }
          else t) }
      match matchingTx.mmJob with
      | some job =>
        if matchingTx.ttype = "REDEEM" then
          match requestToPay job.amount job.phone (toString job.id) with
          | some _ => some db1
          | none => none
        else some db1
      | none => some db1

/-- `handlePriceUpdated(params, event, tx)` (eventProcessor.js lines
349–363): upsert the single cached oracle price row (id 1). -/
def handlePriceUpdated (db : Db) (oldRate newRate timestamp : Nat) : Option Db :=
  let newRateVal := formatUnits newRate 18
  some { db with oraclePrice := some { currentRate := newRateVal, lastUpdated := (timestamp : Int) } }

/-- `executeEventLogic(eventName, params, event, tx)` (eventProcessor.js
lines 198–215): dispatch to the handler matching the event type. -/
def executeEventLogic (requestToPay : ℚ → String → String → Option Unit)
    (params : EventParams) (transactionHash : String) (db : Db) : Option Db :=
  match params with
  | .swap user usdtAmount ugdxAmount _feeAmount _exchangeRate =>
    handleUSDTSwappedForUGDX db user usdtAmount ugdxAmount transactionHash
  | .mmMint user ugdxAmount _timestamp =>
    handleMobileMoneyMintUGDX db user ugdxAmount transactionHash
  | .burn user ugdxAmount _timestamp =>
    handleUGDXBurnedForWithdrawal requestToPay db user ugdxAmount transactionHash
  | .price oldRate newRate timestamp _updater =>
    handlePriceUpdated db oldRate newRate timestamp

/-! ## eventProcessor.js — idempotency gate, checkpoint and dispatcher -/

/-- `prisma.processedEvent.findUnique({ where: { txHash_logIndex } })`. -/
def findUniqueProcessedEvent (db : Db) (txHash : String) (logIndex : Nat) : Option PERow :=
  db.processedEvents.find? (fun r => r.txHash == txHash && r.logIndex == logIndex)

/-- `tx.processedEvent.upsert` inside `processEvent`'s transaction
(eventProcessor.js lines 167–179): update branch sets `processed: true`
on the existing `(txHash, logIndex)` row; create branch inserts the row
with `processed: true`. -/
def processedEventUpsert (db : Db) (txHash : String) (logIndex : Nat)
    (eventName : String) (blockNumber : Int) (contractAddress : String) : Db :=
  if db.processedEvents.any (fun r => r.txHash == txHash && r.logIndex == logIndex) then
    { db with processedEvents := db.processedEvents.map (fun r =>
        if r.txHash == txHash && r.logIndex == logIndex then { r with processed := true } else r) }
  else
    { db with processedEvents := db.processedEvents ++
        [{ txHash := txHash, eventName := eventName, blockNumber := blockNumber,
           logIndex := logIndex, contractAddress := contractAddress, processed := true }] }

/-- `updateLastProcessedBlock(contractAddress, blockNumber, tx)`
(eventProcessor.js lines 368–373): a Prisma `update` that sets
`lastProcessedBlock` to `Math.max(blockNumber, 0)` — the stored value is
not consulted. `none` models the error Prisma throws when no row for
`contractAddress` exists. -/
def updateLastProcessedBlock (db : Db) (contractAddress : String)
    (blockNumber : Int) : Option Db :=
  if db.procStates.any (fun p => p.1 == contractAddress) then
    some { db with procStates := db.procStates.map (fun p =>
      if p.1 == contractAddress then (p.1, max blockNumber 0) else p) }
  else none

/-- The event metadata destructured from `event` at the top of
`processEvent`: `transactionHash` and `logIndex` can be absent on
WebSocket deliveries. -/
structure ChainEventMeta where
  transactionHash : Option String
  blockNumber : Int
  logIndex : Option Nat
  address : String
deriving Repr, DecidableEq

/-- The body of `prisma.$transaction(async (tx) => ...)` inside
`processEvent` (eventProcessor.js lines 165–186): upsert the
ProcessedEvent row, run the business logic, advance the checkpoint.
`none` models any step throwing, which rolls the whole unit back. -/
def processEventTxnBody (requestToPay : ℚ → String → String → Option Unit)
    (params : EventParams) (transactionHash : String) (blockNumber : Int)
    (logIndex : Nat) (address : String) (db : Db) : Option Db := do
  let db1 := processedEventUpsert db transactionHash logIndex
    (eventNameOf params) blockNumber address
  let db2 ← executeEventLogic requestToPay params transactionHash db1
  updateLastProcessedBlock db2 address blockNumber

/-- Running `processEvent`'s transaction against the store: on success
the new state is committed, on a thrown error the transaction rolls
back and the outer `catch` swallows the error, leaving the store as it
was. -/
def processEventCommit (requestToPay : ℚ → String → String → Option Unit)
    (params : EventParams) (transactionHash : String) (blockNumber : Int)
    (logIndex : Nat) (address : String) (db : Db) : Db :=
  match processEventTxnBody requestToPay params transactionHash blockNumber logIndex address db with
  | some db1 => db1
  | none => db

/-- `processEvent(eventName, params, event)` (eventProcessor.js lines
142–193): discard events with a falsy transaction hash; skip events
whose `(txHash, logIndex || 0)` row is already marked processed
(idempotency pre-check, outside the transaction); otherwise run the
transactional unit. -/
def processEvent (requestToPay : ℚ → String → String → Option Unit)
    (params : EventParams) (event : ChainEventMeta) (db : Db) : Db :=
  match event.transactionHash with
  | none => db
  | some transactionHash =>
    if transactionHash = "" then db
    else
      let logIndex := event.logIndex.getD 0
      match findUniqueProcessedEvent db transactionHash logIndex with
      | some existingEvent =>
        if existingEvent.processed then db
        else processEventCommit requestToPay params transactionHash
          event.blockNumber logIndex event.address db
      | none => processEventCommit requestToPay params transactionHash
          event.blockNumber logIndex event.address db

/-! ## eventProcessor.js — block scanner -/

/-- The per-contract range decision inside `scanForMissedEvents`
(eventProcessor.js lines 392–415): query only when
`lastProcessedBlock < currentBlock - 1`; then
`fromBlock = lastProcessedBlock + 1` and
`toBlock = Math.min(currentBlock, fromBlock + 1000)`. -/
def scanRangeFor (lastProcessedBlock currentBlock : Int) : Option (Int × Int) :=
  if lastProcessedBlock < currentBlock - 1 then
    let fromBlock := lastProcessedBlock + 1
    let toBlock := min currentBlock (fromBlock + 1000)
    some (fromBlock, toBlock)
  else none

/-- `scanForMissedEvents()` reduced to the query ranges it issues: for
each monitored contract, look up its `EventProcessingState` row and, if
the guard holds, emit `(address, fromBlock, toBlock)` for the
`queryFilter` call. Contracts without a state row are skipped (the
source's `if (state && ...)` guard). -/
def scanForMissedEvents (states : List (String × Int)) (contracts : List String)
    (currentBlock : Int) : List (String × Int × Int) :=
  contracts.filterMap (fun addr =>
    match states.find? (fun p => p.1 == addr) with
    | some state => (scanRangeFor state.2 currentBlock).map (fun r => (addr, r.1, r.2))
    | none => none)

/-! ## Concrete sample data (used to instantiate theorems with
hypotheses and to evaluate the code at failing inputs) -/

/-- A registered user whose wallet address appears in chain events. -/
def sampleUser : User :=
  { id := 1, walletAddress := "0xab", ugdxCredit := 0, gasCredit := 0 }

/-- A linked mobile-money disbursement job. -/
def sampleJob : MmJob :=
  { id := 3, amount := 5, phone := "0770000000" }

/-- A pending REDEEM transaction row of `sampleUser`, with a given
on-chain reference and linked job. -/
def pendingRedeem (i : Nat) (hash : Option String) (job : Option MmJob) : Txn :=
  { id := i, userId := 1, ttype := "REDEEM", amountUGX := 5, ugdxAmount := 5,
    txHash := hash, status := "PENDING", mmJob := job }

/-- A store with the bridge contract checkpointed at block 10,
`sampleUser` registered, and the given transaction rows. -/
def bridgeDb (transactions : List Txn) : Db :=
  { processedEvents := [], procStates := [("0xbridge", 10)], users := [sampleUser],
    transactions := transactions, nextTxnId := 20, oraclePrice := none }

/-- Metadata of a burn event at block 12 on the bridge contract. -/
def burnEventMeta : ChainEventMeta :=
  { transactionHash := some "0xburn1", blockNumber := 12, logIndex := some 0,
    address := "0xbridge" }

/-- A mobile-money service whose `requestToPay` always succeeds. -/
def rtpOk : ℚ → String → String → Option Unit := fun _ _ _ => some ()

/-- A mobile-money service whose `requestToPay` always throws. -/
def rtpFail : ℚ → String → String → Option Unit := fun _ _ _ => none

/-- A well-formed forward request whose `from` is the (lower-cased)
address of the sample key. -/
def sampleRequest : MetaTxRequest :=
  { «from» := "0xaa", «to» := "0xt", value := 0, gas := 300000, nonce := 1,
    data := "0xd", validUntil := 0 }

/-- `sampleRequest` with one typed field (the nonce) tampered. -/
def sampleRequestTampered : MetaTxRequest :=
  { sampleRequest with nonce := 2 }

/-- A concrete recovery primitive: the signature "sig" over the
untampered request recovers to the sample key's address "0xAA"; on any
other request it recovers to a different address "0xBB". -/
def sampleRecover : ForwarderDomain → List (String × String) → MetaTxRequest → String → Except String String :=
  fun _ _ req s => if s = "sig" ∧ req.nonce = 1 then .ok "0xAA" else .ok "0xBB"

/-- The sample key's signing function (constant signature "sig"). -/
def sampleSign : Nat → ForwarderDomain → List (String × String) → MetaTxRequest → String :=
  fun _ _ _ _ => "sig"

/-- The sample key's address. -/
def sampleAddrOf : Nat → String := fun _ => "0xAA"

/-- A recovery primitive that always throws. -/
def failingRecover : ForwarderDomain → List (String × String) → MetaTxRequest → String → Except String String :=
  fun _ _ _ _ => .error "recovery failed"

/-- A forwarder on which the dry-run static call reverts. -/
def revertingForwarder : ForwarderBehavior :=
  { staticCallResult := .error
      { message := some "execution reverted", code := some "CALL_EXCEPTION",
        reason := some "UGDX: insufficient balance" },
    executeResult := .ok "0xtx", waitResult := .ok { hash := "0xtx" } }

/-! ## Theorems -/

/-- C9 (counterexample): the request built by `createMetaTxRequest` has
`validUntil = 0`, which is not a positive timestamp and hence not a
future deadline bounding the request's validity — the claim's expiry
requirement fails on every produced request. -/
theorem c9_validuntil_is_zero_not_expiry :
    (createMetaTxRequest "0xuser" "0xbridge" "0xdata" 5 137 "0xfwd").validUntil = 0 ∧
    ¬ 0 < (createMetaTxRequest "0xuser" "0xbridge" "0xdata" 5 137 "0xfwd").validUntil := by
  decide

/-- C9 (amended): every request produced by the meta-transaction
builder (here `createBridgeBurnMetaTx`) has `value = 0`, the fixed gas
budget `300000`, the signer's current nonce fetched just-in-time from
the forwarding contract, the encoded call as `data` — and `validUntil`
equal to the constant `0` (no expiry). -/
theorem c9_bridge_burn_request_fields (encodeBurnForWithdrawal : Nat → String)
    (nonces : String → Nat) (userAddress : String) (amount : Nat)
    (bridgeAddress forwarderAddress : String) (chainId : Nat) :
    (createBridgeBurnMetaTx encodeBurnForWithdrawal nonces userAddress amount
        bridgeAddress forwarderAddress chainId).value = 0 ∧
    (createBridgeBurnMetaTx encodeBurnForWithdrawal nonces userAddress amount
        bridgeAddress forwarderAddress chainId).gas = 300000 ∧
    (createBridgeBurnMetaTx encodeBurnForWithdrawal nonces userAddress amount
        bridgeAddress forwarderAddress chainId).nonce = nonces userAddress ∧
    (createBridgeBurnMetaTx encodeBurnForWithdrawal nonces userAddress amount
        bridgeAddress forwarderAddress chainId).validUntil = 0 ∧
    (createBridgeBurnMetaTx encodeBurnForWithdrawal nonces userAddress amount
        bridgeAddress forwarderAddress chainId).«from» = userAddress ∧
    (createBridgeBurnMetaTx encodeBurnForWithdrawal nonces userAddress amount
        bridgeAddress forwarderAddress chainId).«to» = bridgeAddress ∧
    (createBridgeBurnMetaTx encodeBurnForWithdrawal nonces userAddress amount
        bridgeAddress forwarderAddress chainId).data = encodeBurnForWithdrawal amount :=
  ⟨rfl, rfl, rfl, rfl, rfl, rfl, rfl⟩

/-- C6: under the boundary contract of the chain client's typed-data
recovery primitive — an honest signature by key `k` over request `r`
recovers to `k`'s address on `r`, and recovers to some other address
(or throws) when checked against a request `r'` that differs in a typed
field — `verifyMetaTxSignature` returns `true` for the honestly signed
request and `false` for the tampered one, so the action is rejected. -/
theorem c6_signature_verification_correct {K : Type}
    (recoverTypedData : ForwarderDomain → List (String × String) → MetaTxRequest → String → Except String String)
    (addrOf : K → String)
    (sign : K → ForwarderDomain → List (String × String) → MetaTxRequest → String)
    (k : K) (r r' : MetaTxRequest) (chainId : Nat) (forwarderAddress : String)
    (hfrom : toLowerStr r.«from» = toLowerStr (addrOf k))
    (hfrom' : toLowerStr r'.«from» = toLowerStr (addrOf k))
    (htampered : r' ≠ r)
    (hsound : recoverTypedData (getForwarderDomain chainId forwarderAddress) getMetaTxTypes r
        (sign k (getForwarderDomain chainId forwarderAddress) getMetaTxTypes r) = .ok (addrOf k))
    (hnocollision : ∀ a,
        recoverTypedData (getForwarderDomain chainId forwarderAddress) getMetaTxTypes r'
          (sign k (getForwarderDomain chainId forwarderAddress) getMetaTxTypes r) = .ok a →
        toLowerStr a ≠ toLowerStr (addrOf k)) :
    verifyMetaTxSignature recoverTypedData r
      (sign k (getForwarderDomain chainId forwarderAddress) getMetaTxTypes r)
      chainId forwarderAddress = true ∧
    verifyMetaTxSignature recoverTypedData r'
      (sign k (getForwarderDomain chainId forwarderAddress) getMetaTxTypes r)
      chainId forwarderAddress = false := by
  constructor
  · unfold verifyMetaTxSignature
    rw [hsound]
    simp [hfrom]
  · unfold verifyMetaTxSignature
    cases hrec : recoverTypedData (getForwarderDomain chainId forwarderAddress) getMetaTxTypes r'
        (sign k (getForwarderDomain chainId forwarderAddress) getMetaTxTypes r) with
    | ok a =>
      have hne := hnocollision a hrec
      simp only [beq_eq_false_iff_ne, ne_eq]
      intro heq
      exact hne (heq.trans hfrom')
    | error e => rfl

/-- C6 (witness): the abstract recovery hypotheses instantiated with a
concrete recovery primitive, key and request pair. -/
theorem c6_signature_verification_correct_witness :
    verifyMetaTxSignature sampleRecover sampleRequest
      (sampleSign 0 (getForwarderDomain 137 "0xfwd") getMetaTxTypes sampleRequest)
      137 "0xfwd" = true ∧
    verifyMetaTxSignature sampleRecover sampleRequestTampered
      (sampleSign 0 (getForwarderDomain 137 "0xfwd") getMetaTxTypes sampleRequest)
      137 "0xfwd" = false :=
  c6_signature_verification_correct sampleRecover sampleAddrOf sampleSign 0
    sampleRequest sampleRequestTampered 137 "0xfwd"
    (by decide) (by decide) (by decide) (by rfl)
    (fun a h => by
      have ha : a = "0xBB" := by
        simpa [sampleRecover, sampleSign, sampleRequestTampered, sampleRequest] using h.symm
      subst ha
      decide)

/-- C10: `verifyMetaTxSignature` is total (it is a Lean function into
`Bool`), and every internal recovery error — modelled as the injected
primitive returning `Except.error`, covering malformed requests,
signatures or domains that make `ethers.verifyTypedData` throw — yields
the result `false`. -/
theorem c10_verify_returns_false_on_recovery_error
    (recoverTypedData : ForwarderDomain → List (String × String) → MetaTxRequest → String → Except String String)
    (request : MetaTxRequest) (signature : String)
    (chainId : Nat) (forwarderAddress : String) (e : String)
    (herr : recoverTypedData (getForwarderDomain chainId forwarderAddress) getMetaTxTypes request signature = .error e) :
    verifyMetaTxSignature recoverTypedData request signature chainId forwarderAddress = false := by
  unfold verifyMetaTxSignature
  rw [herr]

/-- C10 (witness): a recovery primitive that always throws makes
verification return `false` on a concrete request. -/
theorem c10_verify_returns_false_on_recovery_error_witness :
    verifyMetaTxSignature failingRecover sampleRequest "sig" 137 "0xfwd" = false :=
  c10_verify_returns_false_on_recovery_error failingRecover sampleRequest "sig"
    137 "0xfwd" "recovery failed" rfl

/-- C7: for every behaviour of the forwarder contract, if the dry-run
static call reverts, the real submission is never attempted and the
thrown error's message/code/reason are surfaced in a structured
`{success: false, ...}` result; likewise a thrown submission or
confirmation error is caught and normalized into the same structured
failure shape, never propagated raw (`executeMetaTx` is a total Lean
function into `MetaTxResult`). -/
theorem c7_execute_meta_tx_failure_handling (fwd : ForwarderBehavior) :
    (∀ e, fwd.staticCallResult = .error e →
      executeMetaTx fwd =
        (.failure (jsStringOr e.message "Unknown error") e.code e.reason, false)) ∧
    (∀ e, fwd.staticCallResult = .ok () → fwd.executeResult = .error e →
      executeMetaTx fwd =
        (.failure (jsStringOr e.message "Unknown error") e.code e.reason, true)) ∧
    (∀ e txHash, fwd.staticCallResult = .ok () → fwd.executeResult = .ok txHash →
      fwd.waitResult = .error e →
      executeMetaTx fwd =
        (.failure (jsStringOr e.message "Unknown error") e.code e.reason, true)) := by
  refine ⟨fun e he => ?_, fun e hs he => ?_, fun e txHash hs hx he => ?_⟩
  · unfold executeMetaTx
    rw [he]
  · unfold executeMetaTx
    rw [hs, he]
  · unfold executeMetaTx
    rw [hs, hx, he]

/-- C7 (witness): on a forwarder whose dry-run reverts with a reason,
`executeMetaTx` skips the submission (second component `false`) and
returns the structured failure carrying that reason. -/
theorem c7_execute_meta_tx_failure_handling_witness :
    executeMetaTx revertingForwarder =
      (.failure "execution reverted" (some "CALL_EXCEPTION")
        (some "UGDX: insufficient balance"), false) :=
  ((c7_execute_meta_tx_failure_handling revertingForwarder).1
    { message := some "execution reverted", code := some "CALL_EXCEPTION",
      reason := some "UGDX: insufficient balance" } rfl).trans (by decide)

/-- C5 (counterexample): a debit whose cost (3700) exceeds the user's
balance (100) clamps the credit to 0 — so the amount actually debited
is 100 — while the `GasDrip` USE row records the full cost 3700: the
recorded amount does not equal the amount debited. -/
theorem c5_drip_amount_exceeds_debited_amount :
    (deductGasCredit (10 ^ 18) 1 100).1 = 0 ∧
    (deductGasCredit (10 ^ 18) 1 100).2 = 3700 ∧
    (100 : ℚ) - (deductGasCredit (10 ^ 18) 1 100).1 = 100 ∧
    (deductGasCredit (10 ^ 18) 1 100).2 ≠ (100 : ℚ) - (deductGasCredit (10 ^ 18) 1 100).1 := by
  norm_num [deductGasCredit, formatUnits]

/-- C5 (amended): over any sequence of gas debits starting from a
non-negative `gasCredit`, the balance never becomes negative (each
debit clamps to `max(balance - cost, 0)`), and the sum of the amounts
recorded in the `GasDrip` USE entries is at least — not necessarily
equal to — the total amount actually debited from `gasCredit` (each
entry records the full computed cost even when the debit is clamped). -/
theorem c5_gas_credit_floor_and_drip_sum_bound
    (debits : List (Nat × Nat)) (credit : ℚ) (hcredit : 0 ≤ credit) :
    0 ≤ (runGasDebits debits credit).1 ∧
    credit - (runGasDebits debits credit).1 ≤ ((runGasDebits debits credit).2).sum := by
  induction debits generalizing credit with
  | nil =>
    constructor
    · simpa [runGasDebits] using hcredit
    · simp [runGasDebits]
  | cons d rest ih =>
    obtain ⟨gu, gp⟩ := d
    have hstep : (0 : ℚ) ≤ (deductGasCredit gu gp credit).1 := le_max_right _ _
    obtain ⟨ih1, ih2⟩ := ih (deductGasCredit gu gp credit).1 hstep
    have hclamp : credit - (deductGasCredit gu gp credit).2 ≤ (deductGasCredit gu gp credit).1 := by
      simp only [deductGasCredit]
      exact le_max_left _ _
    constructor
    · simpa [runGasDebits] using ih1
    · simp only [runGasDebits, List.sum_cons]
      linarith

/-- C5 (witness): the amended bound instantiated on a clamped debit
from a balance of 100. -/
theorem c5_gas_credit_floor_and_drip_sum_bound_witness :
    0 ≤ (runGasDebits [(10 ^ 18, 1)] 100).1 ∧
    (100 : ℚ) - (runGasDebits [(10 ^ 18, 1)] 100).1 ≤ ((runGasDebits [(10 ^ 18, 1)] 100).2).sum :=
  c5_gas_credit_floor_and_drip_sum_bound [(10 ^ 18, 1)] 100 (by norm_num)

/-- C8: `(addr, fromBlock, toBlock)` is a range queried by a scan cycle
exactly when `addr` is a monitored contract whose checkpoint row exists
and whose chain head is more than one block ahead
(`lastProcessedBlock < currentBlock - 1`), and then
`fromBlock = lastProcessedBlock + 1`,
`toBlock = min(currentBlock, lastProcessedBlock + 1 + 1000)` — a range
spanning at most 1000 blocks beyond `fromBlock`, never unbounded. -/
theorem c8_scan_queries_bounded_chunks (states : List (String × Int))
    (contracts : List String) (currentBlock : Int) (addr : String) (f t : Int) :
    (addr, f, t) ∈ scanForMissedEvents states contracts currentBlock ↔
      addr ∈ contracts ∧ ∃ last,
        states.find? (fun p => p.1 == addr) = some (addr, last) ∧
        last < currentBlock - 1 ∧
        f = last + 1 ∧
        t = min currentBlock (last + 1 + 1000) ∧
        t - f ≤ 1000 := by
  unfold scanForMissedEvents
  rw [List.mem_filterMap]
  constructor
  · rintro ⟨a, ha, hfn⟩
    cases hfind : states.find? (fun p => p.1 == a) with
    | none => simp [hfind] at hfn
    | some state =>
      have hkey : state.1 = a := by simpa using List.find?_some hfind
      simp only [hfind] at hfn
      unfold scanRangeFor at hfn
      by_cases hguard : state.2 < currentBlock - 1
      · simp only [if_pos hguard, Option.map_some', Option.some.injEq,
          Prod.mk.injEq] at hfn
        obtain ⟨haddr, hf, ht⟩ := hfn
        subst haddr
        refine ⟨ha, state.2, ?_, hguard, hf.symm, ht.symm, ?_⟩
        · rw [hfind]
          cases state
          simp_all
        · have hmin : min currentBlock (state.2 + 1 + 1000) ≤ state.2 + 1 + 1000 :=
            min_le_right _ _
          rw [ht] at hmin
          omega
      · simp [if_neg hguard] at hfn
  · rintro ⟨ha, last, hfind, hguard, hf, ht, _⟩
    refine ⟨addr, ha, ?_⟩
    simp only [hfind]
    unfold scanRangeFor
    simp [if_pos hguard, hf, ht]

/-- C1: evaluation of the code on the claim's race. The idempotency
pre-check (`findUnique`) runs outside the transaction and the upsert
inside it sets `processed: true` unconditionally, so when two
deliveries of the same burn event both pass the pre-check against the
initial store before either commits, the business-logic handler runs
once per delivery: it completes two distinct pending withdrawals with
the same burn hash, and the second delivery changes off-chain state.
Only one `ProcessedEvent` row exists, and a purely sequential second
delivery is a no-op — the claim fails exactly on the racing case. -/
theorem c1_racing_deliveries_run_handler_twice :
    (findUniqueProcessedEvent
        (bridgeDb [pendingRedeem 7 none none, pendingRedeem 8 none none]) "0xburn1" 0 = none) ∧
    (let s0 := bridgeDb [pendingRedeem 7 none none, pendingRedeem 8 none none]
     let s1 := processEventCommit rtpOk (.burn "0xab" 1000 0) "0xburn1" 12 0 "0xbridge" s0
     let s2 := processEventCommit rtpOk (.burn "0xab" 1000 0) "0xburn1" 12 0 "0xbridge" s1
     (s2.transactions.filter
        (fun t => t.status == "COMPLETED" && t.txHash == some "0xburn1")).length = 2 ∧
     s2 ≠ s1 ∧
     (s2.processedEvents.filter (fun r => r.txHash == "0xburn1")).length = 1) ∧
    (let s0 := bridgeDb [pendingRedeem 7 none none, pendingRedeem 8 none none]
     let t1 := processEvent rtpOk (.burn "0xab" 1000 0) burnEventMeta s0
     processEvent rtpOk (.burn "0xab" 1000 0) burnEventMeta t1 = t1) := by
  decide

/-- C2: evaluation of the code at the failing input. With the bridge
checkpoint at block 10, processing an event from the older block 5
(here a burn from an unregistered wallet, whose handler is a no-op but
whose transaction still commits) sets `lastProcessedBlock` to
`Math.max(blockNumber, 0) = 5`: the stored value is not consulted, so
the checkpoint moves backward, contradicting
`max(current, event.blockNumber)` monotonicity. -/
theorem c2_checkpoint_moves_backward :
    (let db : Db := { processedEvents := [], procStates := [("0xbridge", 10)],
                      users := [], transactions := [], nextTxnId := 1, oraclePrice := none }
     let event : ChainEventMeta := { transactionHash := some "0xolder", blockNumber := 5,
                                     logIndex := some 0, address := "0xbridge" }
     processEvent rtpOk (.burn "0xunknown" 1000 0) event db =
       { db with
         processedEvents := [{ txHash := "0xolder", eventName := "UGDXBurnedForWithdrawal",
                               blockNumber := 5, logIndex := 0, contractAddress := "0xbridge",
                               processed := true }],
         procStates := [("0xbridge", 5)] }) ∧
    (5 : Int) < 10 := by
  decide

/-- C3: for every event whose business-logic handler throws inside
`processEvent`'s transaction, the whole unit rolls back atomically: the
store is returned exactly as it was, so no `ProcessedEvent` row for the
event's `(transactionHash, logIndex)` key is left marked processed, no
off-chain state change persists, and the event remains eligible for a
later delivery. -/
theorem c3_handler_throw_rolls_back_atomically
    (requestToPay : ℚ → String → String → Option Unit) (params : EventParams)
    (event : ChainEventMeta) (transactionHash : String) (db : Db)
    (hhash : event.transactionHash = some transactionHash)
    (hfail : executeEventLogic requestToPay params transactionHash
      (processedEventUpsert db transactionHash (event.logIndex.getD 0)
        (eventNameOf params) event.blockNumber event.address) = none) :
    processEvent requestToPay params event db = db := by
  have hcommit : processEventCommit requestToPay params transactionHash
      event.blockNumber (event.logIndex.getD 0) event.address db = db := by
    simp [processEventCommit, processEventTxnBody, hfail]
  unfold processEvent
  rw [hhash]
  by_cases hempty : transactionHash = ""
  · simp [hempty]
  · simp only [if_neg hempty]
    cases hfind : findUniqueProcessedEvent db transactionHash (event.logIndex.getD 0) with
    | none => simpa [hfind] using hcommit
    | some existingEvent =>
      by_cases hp : existingEvent.processed
      · simp [hfind, hp]
      · simpa [hfind, hp] using hcommit

/-- C3 (witness): a burn event whose handler throws (the linked
mobile-money call fails) leaves the store untouched. -/
theorem c3_handler_throw_rolls_back_atomically_witness :
    processEvent rtpFail (.burn "0xab" 1000 0) burnEventMeta
      (bridgeDb [pendingRedeem 7 none (some sampleJob)]) =
    bridgeDb [pendingRedeem 7 none (some sampleJob)] :=
  c3_handler_throw_rolls_back_atomically rtpFail (.burn "0xab" 1000 0) burnEventMeta
    "0xburn1" (bridgeDb [pendingRedeem 7 none (some sampleJob)]) rfl (by decide)

/-- C4 (counterexample): a pending withdrawal record that already
carries an on-chain transaction hash is not skipped by the dispatcher's
burn handler: the handler's `findMany` filters only on
status/type, takes `pendingTxs[0]`, and re-applies the confirmation,
overwriting the stored hash and completing the record — the claim says
such an event is treated as a duplicate confirmation and not
reapplied. -/
theorem c4_already_hashed_record_is_reapplied :
    handleUGDXBurnedForWithdrawal rtpOk
        (bridgeDb [pendingRedeem 7 (some "0xearlier") none]) "0xab" 1000 "0xburn1" =
      some { bridgeDb [pendingRedeem 7 (some "0xearlier") none] with
             transactions := [{ pendingRedeem 7 (some "0xearlier") none with
                                status := "COMPLETED", txHash := some "0xburn1" }] } ∧
    handleUGDXBurnedForWithdrawal rtpOk
        (bridgeDb [pendingRedeem 7 (some "0xearlier") none]) "0xab" 1000 "0xburn1" ≠
      some (bridgeDb [pendingRedeem 7 (some "0xearlier") none]) := by
  decide

/-- C4 (amended): for every burn-confirmed event, the dispatcher's
handler locates the resolved user's first pending withdrawal/send
record — regardless of whether it already carries an on-chain
transaction hash — attaches the event's transaction hash, and marks it
completed, leaving all other rows unchanged (provided the linked
mobile-money call, when the record is a REDEEM with a linked job,
succeeds); and a burn event for a user with no pending withdrawal/send
record leaves the store unchanged. -/
theorem c4_burn_completes_first_pending_record
    (requestToPay : ℚ → String → String → Option Unit) (db : Db)
    (user transactionHash : String) (ugdxAmount : Nat) (dbUser : User)
    (huser : findUserByWallet db user = some dbUser) :
    (∀ m rest, db.transactions.filter (pendingWithdrawalPred dbUser) = m :: rest →
      (∀ job, m.mmJob = some job → m.ttype = "REDEEM" →
        requestToPay job.amount job.phone (toString job.id) = some ()) →
      handleUGDXBurnedForWithdrawal requestToPay db user ugdxAmount transactionHash =
        some { db with transactions := db.transactions.map (fun t =>
          if t.id = m.id then { t with status := "COMPLETED", txHash := some transactionHash }
          else t) }) ∧
    (db.transactions.filter (pendingWithdrawalPred dbUser) = [] →
      handleUGDXBurnedForWithdrawal requestToPay db user ugdxAmount transactionHash = some db) := by
  constructor
  · intro m rest hpending hmm
    unfold handleUGDXBurnedForWithdrawal
    simp only [huser, hpending]
    cases hjob : m.mmJob with
    | none => simp
    | some job =>
      by_cases hty : m.ttype = "REDEEM"
      · simp [hty, hmm job hjob hty]
      · simp [hty]
  · intro hempty
    unfold handleUGDXBurnedForWithdrawal
    simp only [huser, hempty]

/-- C4 (witness): the amended claim instantiated on both flows — a
pending REDEEM record with no transaction hash and no linked job is
completed and stamped with the burn event's hash, and a burn event for
the same user with no pending record leaves the store unchanged. -/
theorem c4_burn_completes_first_pending_record_witness :
    (handleUGDXBurnedForWithdrawal rtpOk
        (bridgeDb [pendingRedeem 7 none none]) "0xab" 1000 "0xburn1" =
      some { bridgeDb [pendingRedeem 7 none none] with
             transactions := [{ pendingRedeem 7 none none with
                                status := "COMPLETED", txHash := some "0xburn1" }] }) ∧
    (handleUGDXBurnedForWithdrawal rtpOk (bridgeDb []) "0xab" 1000 "0xburn1" =
      some (bridgeDb [])) :=
  ⟨(((c4_burn_completes_first_pending_record rtpOk
      (bridgeDb [pendingRedeem 7 none none]) "0xab" "0xburn1" 1000
      sampleUser (by decide)).1 (pendingRedeem 7 none none) []
      (by decide) (fun job hj _ => Option.noConfusion hj)).trans (by decide)),
   ((c4_burn_completes_first_pending_record rtpOk
      (bridgeDb []) "0xab" "0xburn1" 1000
      sampleUser (by decide)).2 (by decide))⟩

end Hermes
